import Mathlib

/-!
Shallow embedding of the market-data server (`src/server.ts`) and the
classification client (`src/unnamed/part_001`, `classifyStocks`).

Modelling conventions:
* JavaScript numbers are modelled as `ℚ`; `parseFloat` returning `NaN` is
  modelled as `Option ℚ` returning `none` (the model covers finite decimal
  numerals with optional sign, fraction and exponent; the special literal
  `Infinity` is out of model).
* A table cell is `Option String`: `none` stands for an absent cell
  (JavaScript `undefined`); indexing past the end of a row yields `none`.
* A thrown JavaScript exception is modelled as `Except.error ()`; code that
  completes normally returns `Except.ok`.
* A JavaScript object used as a string-keyed map is modelled as an
  association list in insertion order where assignment to an existing key
  overwrites in place (`stockMapUpsert`).
* `Array.prototype.sort` (stable in ECMAScript 2019+, and in the V8 runtime
  this server runs on) is modelled by `List.mergeSort`, which is stable.
-/

namespace StockServer

/-- One cell of a raw tabular row: `none` models JavaScript `undefined`. -/
abbrev Cell := Option String

/-- One raw row of an exchange feed: a fixed-position array of cells. -/
abbrev Row := List Cell

/-- `row[i]` in JavaScript: the cell when in range, `undefined` otherwise. -/
def cell (row : Row) (i : Nat) : Cell := row.getD i none

/-- Whitespace skipped by `parseFloat` before the numeral. -/
def isWsChar (c : Char) : Bool :=
  c = ' ' || c = '\t' || c = '\n' || c = '\r' || c = '\x0b' || c = '\x0c'

/-- Value of a list of decimal digit characters, most significant first. -/
def digitsToNat (ds : List Char) : Nat :=
  ds.foldl (fun n c => 10 * n + (c.toNat - 48)) 0

/-- The digits of an exponent part, `none` when there is no digit. -/
def parseExpDigits (cs : List Char) : Option Nat :=
  let ds := cs.takeWhile Char.isDigit
  if ds.isEmpty then none else some (digitsToNat ds)

/-- The exponent denoted by the remainder of a numeral: `e`/`E`, an optional
sign and at least one digit; anything else contributes exponent `0`, as
`parseFloat` ignores a trailing `e` with no digits. -/
def parseExponent (cs : List Char) : Int :=
  match cs with
  | c :: rest =>
    if c = 'e' || c = 'E' then
      match rest with
      | '-' :: ds =>
        match parseExpDigits ds with
        | some n => -(n : Int)
        | none => 0
      | '+' :: ds =>
        match parseExpDigits ds with
        | some n => (n : Int)
        | none => 0
      | ds =>
        match parseExpDigits ds with
        | some n => (n : Int)
        | none => 0
    else 0
  | [] => 0

/-- `parseFloat` on a character list: leading whitespace, an optional sign,
integer digits, an optional fraction, an optional exponent; trailing garbage
is ignored; no digit at all gives `none` (JavaScript `NaN`). -/
def parseFloatAux (cs : List Char) : Option ℚ :=
  let cs1 := cs.dropWhile isWsChar
  let sgn : ℚ := match cs1 with
    | '-' :: _ => -1
    | _ => 1
  let cs2 : List Char := match cs1 with
    | '-' :: rest => rest
    | '+' :: rest => rest
    | _ => cs1
  let ip := cs2.takeWhile Char.isDigit
  let cs3 := cs2.dropWhile Char.isDigit
  let fp : List Char := match cs3 with
    | '.' :: rest => rest.takeWhile Char.isDigit
    | _ => []
  let cs4 : List Char := match cs3 with
    | '.' :: rest => rest.dropWhile Char.isDigit
    | _ => cs3
  if ip.isEmpty && fp.isEmpty then none
  else
    let mant : ℚ := (digitsToNat ip : ℚ) + (digitsToNat fp : ℚ) / (10 : ℚ) ^ fp.length
    some (sgn * mant * (10 : ℚ) ^ parseExponent cs4)

/-- JavaScript `parseFloat` (finite numerals; `NaN` is `none`). -/
def parseFloat (s : String) : Option ℚ := parseFloatAux s.data

/-- `s.replace(/,/g, "")`: remove every comma. -/
def stripCommas (s : String) : String := String.mk (s.data.filter (fun c => c ≠ ','))

/-- Drop characters up to and including the first `>` (the tail of an HTML
tag match); when no `>` remains, drop everything, as the regex `<[^>]*>?`
then matches to the end of the string. -/
def dropUpToGt : List Char → List Char
  | [] => []
  | c :: rest => if c = '>' then rest else dropUpToGt rest

theorem dropUpToGt_length_le : ∀ cs : List Char, (dropUpToGt cs).length ≤ cs.length
  | [] => Nat.le_refl _
  | c :: rest => by
    unfold dropUpToGt
    split
    · exact Nat.le_succ_of_le (Nat.le_refl _)
    · exact Nat.le_succ_of_le (dropUpToGt_length_le rest)

/-- Fuel-indexed scanner for `s.replace(/<[^>]*>?/gm, "")`; the fuel is an
upper bound on the list length, so the zero-fuel case is never reached from
`stripTags`. -/
def stripTagsAux : Nat → List Char → List Char
  | 0, _ => []
  | _ + 1, [] => []
  | fuel + 1, c :: rest =>
    if c = '<' then stripTagsAux fuel (dropUpToGt rest)
    else c :: stripTagsAux fuel rest

/-- `s.replace(/<[^>]*>?/gm, "")`: remove every HTML-tag-shaped substring. -/
def stripTags (s : String) : String := String.mk (stripTagsAux s.data.length s.data)

/-- `s.replace("+", "")` on a character list: remove the first `+` only. -/
def removeFirst (target : Char) : List Char → List Char
  | [] => []
  | c :: rest => if c = target then rest else c :: removeFirst target rest

/-- The canonical per-security record produced by both normalizers. -/
structure Stock where
  code : Option String
  name : Option String
  pct : ℚ
  close : ℚ
  amount : String
deriving DecidableEq

/-- `const prevClose = close - change; prevClose !== 0 ? (change / prevClose) * 100 : 0`. -/
def computePct (close change : ℚ) : ℚ :=
  let prevClose := close - change
  if prevClose ≠ 0 then change / prevClose * 100 else 0

/-- The change field of a TWSE row: HTML tags stripped, commas stripped, and
when a `+` occurs anywhere, the first `+` removed before parsing. -/
def twseChange (r8 : String) : Option ℚ :=
  let changeStr := stripCommas (stripTags r8)
  if changeStr.data.contains '+' then parseFloat (String.mk (removeFirst '+' changeStr.data))
  else parseFloat changeStr

/-- One row of `processTwseData`: positions 0 (code), 1 (name), 3 (traded
value), 7 (close), 8 (change). Reading `.replace` off an absent cell at
position 3, 7 or 8 throws (`Except.error`); a row whose close or change
fails to parse, or whose close is zero, maps to `none` and is filtered out. -/
def processTwseRow (row : Row) : Except Unit (Option Stock) :=
  match cell row 3, cell row 7, cell row 8 with
  | some a3, some r7, some r8 =>
    let amountRaw := stripCommas a3
    let close? := parseFloat (stripCommas r7)
    let change? := twseChange r8
    match close?, change? with
    | some close, some change =>
      if close = 0 then .ok none
      else .ok (some ⟨cell row 0, cell row 1, computePct close change, close, amountRaw⟩)
    | _, _ => .ok none
  | _, _, _ => .error ()

/-- `rows.map(f)` where `f` may throw: the first exception aborts the map. -/
def mapRows (f : Row → Except Unit (Option Stock)) : List Row → Except Unit (List (Option Stock))
  | [] => .ok []
  | r :: rs =>
    match f r with
    | .error e => .error e
    | .ok x =>
      match mapRows f rs with
      | .error e => .error e
      | .ok xs => .ok (x :: xs)

/-- The TWSE payload: possibly missing `data` array of rows. -/
structure TwsePayload where
  data : Option (List Row)
deriving DecidableEq

/-- `processTwseData`: `[]` when `data` is missing, else map each row and
drop the `null` entries. -/
def processTwseData (j : TwsePayload) : Except Unit (List Stock) :=
  match j.data with
  | none => .ok []
  | some rows =>
    match mapRows processTwseRow rows with
    | .error e => .error e
    | .ok xs => .ok (xs.filterMap id)

/-- The TPEX payload: `tables` is a possibly-missing array of tables, each
with a possibly-missing `data` field; `data` and `aaData` are
possibly-missing arrays of rows. -/
structure TpexPayload where
  tables : Option (List (Option (List Row)))
  data : Option (List Row)
  aaData : Option (List Row)
deriving DecidableEq

/-- `(x || "0").toString()` for a cell: `"0"` when absent or empty. -/
def orZero : Cell → String
  | none => "0"
  | some s => if s = "" then "0" else s

/-- One row of `processTpexData`: position 0 (code, must be present or the
`length` access throws), 1 (name), 2 (close), 3 (change), 8 (traded value);
codes of length at least 6 are dropped, as are rows whose close or change
fails to parse or whose close is zero. -/
def processTpexRow (row : Row) : Except Unit (Option Stock) :=
  match cell row 0 with
  | none => .error ()
  | some code =>
    if code.length ≥ 6 then .ok none
    else
      let closeStr := stripCommas (orZero (cell row 2))
      let changeStr := stripCommas (orZero (cell row 3))
      let amountStr := stripCommas (orZero (cell row 8))
      match parseFloat closeStr, parseFloat changeStr with
      | some close, some change =>
        if close = 0 then .ok none
        else .ok (some ⟨some code, cell row 1, computePct close change, close, amountStr⟩)
      | _, _ => .ok none

/-- The container `processTpexData` selects: `tables[0].data` when `tables`
is present and non-empty, else `data`, else `aaData`, else the initial empty
array; `none` models the selected container being `undefined`. -/
def tpexSelect (j : TpexPayload) : Option (List Row) :=
  match j.tables with
  | some (t :: _) => t
  | _ =>
    match j.data with
    | some d => some d
    | none =>
      match j.aaData with
      | some d => some d
      | none => some []

/-- `processTpexData`: `[]` when the selected container is `undefined` or
empty, else map each row and drop the `null` entries. -/
def processTpexData (j : TpexPayload) : Except Unit (List Stock) :=
  match tpexSelect j with
  | none => .ok []
  | some [] => .ok []
  | some rows =>
    match mapRows processTpexRow rows with
    | .error e => .error e
    | .ok xs => .ok (xs.filterMap id)

/-- The decimal digit character for `d % 10`. -/
def decDigit (d : Nat) : Char := Char.ofNat (48 + d % 10)

/-- Fuel-indexed decimal rendering of a natural number, most significant
digit first; the fuel is an upper bound reached only at `0`. -/
def natToDecAux : Nat → Nat → List Char
  | 0, _ => []
  | _ + 1, 0 => []
  | fuel + 1, n + 1 => natToDecAux fuel ((n + 1) / 10) ++ [decDigit ((n + 1) % 10)]

/-- Decimal rendering of a natural number. -/
def natToDec (n : Nat) : String :=
  if n = 0 then "0" else String.mk (natToDecAux n n)

/-- Two-digit zero-padded rendering of `k < 100`. -/
def pad2 (k : Nat) : String := String.mk [decDigit (k / 10), decDigit k]

/-- `⌊q⌋` computed on the numerator and denominator. -/
def ratFloorNat (q : ℚ) : Nat := (Int.fdiv q.num (q.den : Int)).toNat

/-- `q.toFixed(2)` (ECMAScript `Number.prototype.toFixed` with
`fractionDigits = 2`): the sign of a negative number, then the integer for
which `n / 100` is closest to `|q|` (ties to the larger), rendered with
exactly two fraction digits. -/
def toFixed2 (q : ℚ) : String :=
  let n := ratFloorNat (|q| * 100 + 1 / 2)
  (if q < 0 then "-" else "") ++ natToDec (n / 100) ++ "." ++ pad2 (n % 100)

/-- ``const sign = s.pct > 0 ? "+" : ""; `${sign}${s.pct.toFixed(2)}%` ``. -/
def formatPct (q : ℚ) : String :=
  (if q > 0 then "+" else "") ++ toFixed2 q ++ "%"

/-- Assignment `obj[k] = v` on a JavaScript object modelled as an insertion
ordered association list: overwrite in place when the key exists, append
otherwise. -/
def stockMapUpsert (m : List (Option String × String)) (k : Option String) (v : String) :
    List (Option String × String) :=
  if m.any (fun p => decide (p.1 = k)) then
    m.map (fun p => if p.1 = k then (k, v) else p)
  else m ++ [(k, v)]

/-- `allStocks.forEach(s => { stockMap[s.code] = sign + pct.toFixed(2) + "%" })`. -/
def buildStockMap (stocks : List Stock) : List (Option String × String) :=
  stocks.foldl (fun m s => stockMapUpsert m s.code (formatPct s.pct)) []

/-- `obj[k]` on the association-list model of a JavaScript object. -/
def mapLookup (m : List (Option String × String)) (k : Option String) : Option String :=
  match m.find? (fun p => decide (p.1 = k)) with
  | some p => some p.2
  | none => none

/-- Comparator order of `sort((a, b) => b.pct - a.pct)`: descending by `pct`. -/
def descLE (a b : Stock) : Bool := decide (b.pct ≤ a.pct)

/-- Comparator order of `sort((a, b) => a.pct - b.pct)`: ascending by `pct`. -/
def ascLE (a b : Stock) : Bool := decide (a.pct ≤ b.pct)

/-- `[...allStocks].sort((a, b) => b.pct - a.pct).slice(0, 100)`. -/
def gainers (allStocks : List Stock) : List Stock :=
  (allStocks.mergeSort descLE).take 100

/-- `[...allStocks].sort((a, b) => a.pct - b.pct).slice(0, 100)`. -/
def losers (allStocks : List Stock) : List Stock :=
  (allStocks.mergeSort ascLE).take 100

/-- The observable response of `GET /api/market-data`. -/
inductive Response where
  | ok (gainers losers : List Stock) (stockMap : List (Option String × String))
      (timestamp : String)
  | notFound (error : String)
  | serverError (error : String)
deriving DecidableEq

/-- The `GET /api/market-data` handler: the two fetch/JSON-parse results come
in as `Except Unit` values; any failure there or any exception in a
normalizer lands in the `catch` block, which responds 500 with a fixed
message; an empty combined list responds 404; otherwise 200 with the ranked
snapshot. -/
def marketDataHandler (twseData : Except Unit TwsePayload) (tpexData : Except Unit TpexPayload)
    (timestamp : String) : Response :=
  match twseData, tpexData with
  | .ok tw, .ok tp =>
    match processTwseData tw, processTpexData tp with
    | .ok twseStocks, .ok tpexStocks =>
      let allStocks := twseStocks ++ tpexStocks
      if allStocks.length = 0 then .notFound "No market data available today."
      else .ok (gainers allStocks) (losers allStocks) (buildStockMap allStocks) timestamp
    | _, _ => .serverError "Failed to fetch market data"
  | _, _ => .serverError "Failed to fetch market data"

/-- Output shape of the classification call. -/
structure CategoryGroup where
  category : String
  stocks : List String
deriving DecidableEq

/-- The tail of `classifyStocks`: the model response text is `response.text`
(`none` when absent); `JSON.parse` is an external black box, passed in as a
function whose failure is `Except.error`; a missing text or a parse failure
yields `[]` inside the caught branch. -/
def classifyResult (parseJSON : String → Except Unit (List CategoryGroup))
    (text : Option String) : List CategoryGroup :=
  match text with
  | none => []
  | some t =>
    match parseJSON t with
    | .ok groups => groups
    | .error _ => []

/-! ## Helper lemmas -/

set_option maxRecDepth 20000

-- The Stock lists inside Except results are compared by decide in the
-- concrete-input theorems below.
deriving instance DecidableEq for Except

/-- A stock in the filtered output of a row map comes from some input row
that mapped to exactly that stock. -/
theorem mem_mapRows {f : Row → Except Unit (Option Stock)} :
    ∀ {rows : List Row} {xs : List (Option Stock)}, mapRows f rows = .ok xs →
      ∀ {s : Stock}, s ∈ xs.filterMap id → ∃ row ∈ rows, f row = .ok (some s) := by
  intro rows
  induction rows with
  | nil =>
    intro xs h s hs
    simp only [mapRows, Except.ok.injEq] at h
    subst h
    simp at hs
  | cons r rs ih =>
    intro xs h s hs
    cases hfr : f r with
    | error e => simp [mapRows, hfr] at h
    | ok x =>
      cases hrest : mapRows f rs with
      | error e => simp [mapRows, hfr, hrest] at h
      | ok xs2 =>
        simp only [mapRows, hfr, hrest, Except.ok.injEq] at h
        subst h
        cases x with
        | none =>
          simp only [List.filterMap_cons, id] at hs
          obtain ⟨row, hrow, hf⟩ := ih hrest hs
          exact ⟨row, List.mem_cons_of_mem _ hrow, hf⟩
        | some a =>
          simp only [List.filterMap_cons, id] at hs
          rcases List.mem_cons.mp hs with hsa | hs2
          · exact ⟨r, List.mem_cons_self _ _, by rw [hfr, hsa]⟩
          · obtain ⟨row, hrow, hf⟩ := ih hrest hs2
            exact ⟨row, List.mem_cons_of_mem _ hrow, hf⟩

/-- Inversion of a TWSE row that produced a stock: the three accessed cells
were present, close and change parsed, close is non-zero, and the stock is
built from them. -/
theorem processTwseRow_ok_some {row : Row} {s : Stock}
    (h : processTwseRow row = .ok (some s)) :
    ∃ a3 r7 r8 close change,
      cell row 3 = some a3 ∧ cell row 7 = some r7 ∧ cell row 8 = some r8 ∧
      parseFloat (stripCommas r7) = some close ∧ twseChange r8 = some change ∧
      close ≠ 0 ∧
      s = ⟨cell row 0, cell row 1, computePct close change, close, stripCommas a3⟩ := by
  cases h3 : cell row 3 with
  | none => simp [processTwseRow, h3] at h
  | some a3 =>
  cases h7 : cell row 7 with
  | none => simp [processTwseRow, h3, h7] at h
  | some r7 =>
  cases h8 : cell row 8 with
  | none => simp [processTwseRow, h3, h7, h8] at h
  | some r8 =>
  cases hc : parseFloat (stripCommas r7) with
  | none => simp [processTwseRow, h3, h7, h8, hc] at h
  | some close =>
  cases hch : twseChange r8 with
  | none => simp [processTwseRow, h3, h7, h8, hc, hch] at h
  | some change =>
  simp only [processTwseRow, h3, h7, h8, hc, hch] at h
  by_cases hz : close = 0
  · rw [if_pos hz] at h; simp at h
  · rw [if_neg hz] at h
    simp only [Except.ok.injEq, Option.some.injEq] at h
    exact ⟨a3, r7, r8, close, change, rfl, rfl, rfl, hc, hch, hz, h.symm⟩

/-- Inversion of a TPEX row that produced a stock. -/
theorem processTpexRow_ok_some {row : Row} {s : Stock}
    (h : processTpexRow row = .ok (some s)) :
    ∃ code close change,
      cell row 0 = some code ∧ code.length < 6 ∧
      parseFloat (stripCommas (orZero (cell row 2))) = some close ∧
      parseFloat (stripCommas (orZero (cell row 3))) = some change ∧
      close ≠ 0 ∧
      s = ⟨some code, cell row 1, computePct close change, close,
        stripCommas (orZero (cell row 8))⟩ := by
  cases h0 : cell row 0 with
  | none => simp [processTpexRow, h0] at h
  | some code =>
  by_cases hlen : code.length ≥ 6
  · simp [processTpexRow, h0, hlen] at h
  · cases hc : parseFloat (stripCommas (orZero (cell row 2))) with
    | none => simp [processTpexRow, h0, hlen, hc] at h
    | some close =>
    cases hch : parseFloat (stripCommas (orZero (cell row 3))) with
    | none => simp [processTpexRow, h0, hlen, hc, hch] at h
    | some change =>
    simp only [processTpexRow, h0, hlen, if_false, hc, hch] at h
    by_cases hz : close = 0
    · rw [if_pos hz] at h; simp at h
    · rw [if_neg hz] at h
      simp only [Except.ok.injEq, Option.some.injEq] at h
      exact ⟨code, close, change, rfl, Nat.lt_of_not_le hlen, rfl, rfl, hz, h.symm⟩

/-- A stock in the TWSE normalizer output comes from a row of the payload. -/
theorem mem_processTwseData {j : TwsePayload} {out : List Stock} {s : Stock}
    (h : processTwseData j = .ok out) (hs : s ∈ out) :
    ∃ rows, j.data = some rows ∧ ∃ row ∈ rows, processTwseRow row = .ok (some s) := by
  cases hd : j.data with
  | none =>
    simp only [processTwseData, hd, Except.ok.injEq] at h
    subst h
    exact absurd hs (by simp)
  | some rows =>
    cases hm : mapRows processTwseRow rows with
    | error e => simp [processTwseData, hd, hm] at h
    | ok xs =>
      simp only [processTwseData, hd, hm, Except.ok.injEq] at h
      subst h
      exact ⟨rows, rfl, mem_mapRows hm hs⟩

/-- A stock in the TPEX normalizer output comes from a row of the selected
container. -/
theorem mem_processTpexData {j : TpexPayload} {out : List Stock} {s : Stock}
    (h : processTpexData j = .ok out) (hs : s ∈ out) :
    ∃ rows, tpexSelect j = some rows ∧ ∃ row ∈ rows, processTpexRow row = .ok (some s) := by
  cases hd : tpexSelect j with
  | none =>
    simp only [processTpexData, hd, Except.ok.injEq] at h
    subst h
    exact absurd hs (by simp)
  | some rows =>
    cases rows with
    | nil =>
      simp only [processTpexData, hd, Except.ok.injEq] at h
      subst h
      exact absurd hs (by simp)
    | cons r rs =>
      cases hm : mapRows processTpexRow (r :: rs) with
      | error e => simp [processTpexData, hd, hm] at h
      | ok xs =>
        simp only [processTpexData, hd, hm, Except.ok.injEq] at h
        subst h
        exact ⟨r :: rs, rfl, mem_mapRows hm hs⟩

/-! ## Claim theorems -/

/-- Claim C1: for every row that survives normalization (in either variant),
the stored `pct` equals `(change / (close - change)) * 100` when
`close - change` is non-zero, and equals `0` when `close - change` is zero;
equivalently `pct = (close - prevClose) / prevClose * 100` with
`prevClose = close - change`. -/
theorem claim_C1_pct_invariant
    (jT : TwsePayload) (outT : List Stock) (hT : processTwseData jT = .ok outT)
    (jP : TpexPayload) (outP : List Stock) (hP : processTpexData jP = .ok outP) :
    (∀ s ∈ outT, ∃ rows row r7 r8 change,
      jT.data = some rows ∧ row ∈ rows ∧
      cell row 7 = some r7 ∧ cell row 8 = some r8 ∧
      parseFloat (stripCommas r7) = some s.close ∧ twseChange r8 = some change ∧
      (s.close - change ≠ 0 → s.pct = change / (s.close - change) * 100 ∧
        s.pct = (s.close - (s.close - change)) / (s.close - change) * 100) ∧
      (s.close - change = 0 → s.pct = 0)) ∧
    (∀ s ∈ outP, ∃ rows row change,
      tpexSelect jP = some rows ∧ row ∈ rows ∧
      parseFloat (stripCommas (orZero (cell row 2))) = some s.close ∧
      parseFloat (stripCommas (orZero (cell row 3))) = some change ∧
      (s.close - change ≠ 0 → s.pct = change / (s.close - change) * 100 ∧
        s.pct = (s.close - (s.close - change)) / (s.close - change) * 100) ∧
      (s.close - change = 0 → s.pct = 0)) := by
  constructor
  · intro s hs
    obtain ⟨rows, hrows, row, hrowm, hrow⟩ := mem_processTwseData hT hs
    obtain ⟨a3, r7, r8, close, change, h3, h7, h8, hc, hch, hz, hseq⟩ :=
      processTwseRow_ok_some hrow
    subst hseq
    refine ⟨rows, row, r7, r8, change, hrows, hrowm, h7, h8, hc, hch,
      fun hnz => ?_, fun hz2 => ?_⟩
    · constructor
      · simp only [computePct, if_pos hnz]
      · rw [computePct]
        simp only [if_pos hnz]
        ring_nf
    · simp only [computePct, hz2, if_neg (by simp : ¬ (0 : ℚ) ≠ 0)]
  · intro s hs
    obtain ⟨rows, hrows, row, hrowm, hrow⟩ := mem_processTpexData hP hs
    obtain ⟨code, close, change, h0, hlen, hc, hch, hz, hseq⟩ := processTpexRow_ok_some hrow
    subst hseq
    refine ⟨rows, row, change, hrows, hrowm, hc, hch, fun hnz => ?_, fun hz2 => ?_⟩
    · constructor
      · simp only [computePct, if_pos hnz]
      · rw [computePct]
        simp only [if_pos hnz]
        ring_nf
    · simp only [computePct, hz2, if_neg (by simp : ¬ (0 : ℚ) ≠ 0)]

/-- A TWSE example row: the spec's end-to-end fixture
`["2330","TSMC","","","","","","600.00","+10.00<b></b>"]`. -/
def twseExampleRow : Row :=
  [some "2330", some "TSMC", some "", some "", some "", some "", some "",
   some "600.00", some "+10.00<b></b>"]

/-- A TPEX example row: the spec's end-to-end fixture
`["5678","SmallCo","50","-2","","","","","1000"]`. -/
def tpexExampleRow : Row :=
  [some "5678", some "SmallCo", some "50", some "-2", some "", some "", some "",
   some "", some "1000"]

/-- Witness for C1 at the spec's own fixtures. -/
theorem claim_C1_witness :
    processTwseData ⟨some [twseExampleRow]⟩ =
      .ok [⟨some "2330", some "TSMC", 100 / 59, 600, ""⟩] ∧
    processTpexData ⟨none, some [tpexExampleRow], none⟩ =
      .ok [⟨some "5678", some "SmallCo", -50 / 13, 50, "1000"⟩] ∧
    (∀ s ∈ [(⟨some "2330", some "TSMC", 100 / 59, 600, ""⟩ : Stock)],
      ∃ rows row r7 r8 change,
      (⟨some [twseExampleRow]⟩ : TwsePayload).data = some rows ∧ row ∈ rows ∧
      cell row 7 = some r7 ∧ cell row 8 = some r8 ∧
      parseFloat (stripCommas r7) = some s.close ∧ twseChange r8 = some change ∧
      (s.close - change ≠ 0 → s.pct = change / (s.close - change) * 100 ∧
        s.pct = (s.close - (s.close - change)) / (s.close - change) * 100) ∧
      (s.close - change = 0 → s.pct = 0)) :=
  ⟨by with_unfolding_all decide, by with_unfolding_all decide,
    (claim_C1_pct_invariant ⟨some [twseExampleRow]⟩
      [⟨some "2330", some "TSMC", 100 / 59, 600, ""⟩] (by with_unfolding_all decide)
      ⟨none, some [tpexExampleRow], none⟩
      [⟨some "5678", some "SmallCo", -50 / 13, 50, "1000"⟩]
      (by with_unfolding_all decide)).1⟩

/-- Claim C2: for every input payload to either normalizer, no record in the
output has a close or change field that failed to parse as a number, and no
record has close equal to zero; such rows are excluded entirely from the
result sequence. Every surviving record has a non-zero close that parsed from
its row's close cell, and its row's change cell parsed as well. -/
theorem claim_C2_invalid_rows_excluded
    (jT : TwsePayload) (outT : List Stock) (hT : processTwseData jT = .ok outT)
    (jP : TpexPayload) (outP : List Stock) (hP : processTpexData jP = .ok outP) :
    (∀ s ∈ outT, s.close ≠ 0 ∧ ∃ rows row, jT.data = some rows ∧ row ∈ rows ∧
      ∃ r7 r8 change, cell row 7 = some r7 ∧ cell row 8 = some r8 ∧
        parseFloat (stripCommas r7) = some s.close ∧ twseChange r8 = some change) ∧
    (∀ s ∈ outP, s.close ≠ 0 ∧ ∃ rows row, tpexSelect jP = some rows ∧ row ∈ rows ∧
      ∃ change, parseFloat (stripCommas (orZero (cell row 2))) = some s.close ∧
        parseFloat (stripCommas (orZero (cell row 3))) = some change) := by
  constructor
  · intro s hs
    obtain ⟨rows, hrows, row, hrow, hok⟩ := mem_processTwseData hT hs
    obtain ⟨a3, r7, r8, close, change, h3, h7, h8, hc, hch, hz, hseq⟩ :=
      processTwseRow_ok_some hok
    subst hseq
    exact ⟨hz, rows, row, hrows, hrow, r7, r8, change, h7, h8, hc, hch⟩
  · intro s hs
    obtain ⟨rows, hrows, row, hrow, hok⟩ := mem_processTpexData hP hs
    obtain ⟨code, close, change, h0, hlen, hc, hch, hz, hseq⟩ := processTpexRow_ok_some hok
    subst hseq
    exact ⟨hz, rows, row, hrows, hrow, change, hc, hch⟩

/-- Witness for C2 at the spec's own fixtures. -/
theorem claim_C2_witness :
    processTwseData ⟨some [twseExampleRow]⟩ =
      .ok [⟨some "2330", some "TSMC", 100 / 59, 600, ""⟩] ∧
    processTpexData ⟨none, some [tpexExampleRow], none⟩ =
      .ok [⟨some "5678", some "SmallCo", -50 / 13, 50, "1000"⟩] ∧
    (∀ s ∈ [(⟨some "2330", some "TSMC", 100 / 59, 600, ""⟩ : Stock)], s.close ≠ 0 ∧
      ∃ rows row, (⟨some [twseExampleRow]⟩ : TwsePayload).data = some rows ∧ row ∈ rows ∧
      ∃ r7 r8 change, cell row 7 = some r7 ∧ cell row 8 = some r8 ∧
        parseFloat (stripCommas r7) = some s.close ∧ twseChange r8 = some change) :=
  ⟨by with_unfolding_all decide, by with_unfolding_all decide,
    (claim_C2_invalid_rows_excluded ⟨some [twseExampleRow]⟩
      [⟨some "2330", some "TSMC", 100 / 59, 600, ""⟩] (by with_unfolding_all decide)
      ⟨none, some [tpexExampleRow], none⟩
      [⟨some "5678", some "SmallCo", -50 / 13, 50, "1000"⟩]
      (by with_unfolding_all decide)).1⟩

/-- Claim C3 fails on the code: a malformed individual row is not always
silently skipped. A row lacking the string cells the normalizer accesses
(here the empty row `[]`) makes `row[3].replace` (TWSE) or `row[0].length`
(TPEX) throw, so the whole normalizer raises instead of filtering the row
out. -/
theorem claim_C3_counterexample :
    processTwseData { data := some [([] : Row)] } = Except.error () ∧
    processTpexData { tables := none, data := some [([] : Row)], aaData := none } =
      Except.error () := by
  constructor
  · with_unfolding_all decide
  · with_unfolding_all decide

/-- Claim C3 amended: a malformed top-level payload (missing expected
container) yields an empty sequence rather than an error, and a row whose
accessed cells are present as strings never raises — when its numeric
fields fail to parse it is silently skipped (mapped to `none`, then filtered
out). However, a row missing the accessed string cells (TWSE: position 3;
TPEX: position 0) raises an exception, which the endpoint handler catches. -/
theorem claim_C3_amended :
    (∀ j : TwsePayload, j.data = none → processTwseData j = .ok []) ∧
    (∀ j : TpexPayload, j.tables = none → j.data = none → j.aaData = none →
      processTpexData j = .ok []) ∧
    (∀ row : Row, (cell row 3).isSome → (cell row 7).isSome → (cell row 8).isSome →
      ∃ x, processTwseRow row = .ok x) ∧
    (∀ row a3 r7 r8, cell row 3 = some a3 → cell row 7 = some r7 → cell row 8 = some r8 →
      (parseFloat (stripCommas r7) = none ∨ twseChange r8 = none) →
      processTwseRow row = .ok none) ∧
    (∀ row : Row, (cell row 0).isSome → ∃ x, processTpexRow row = .ok x) ∧
    (∀ row code, cell row 0 = some code → code.length < 6 →
      (parseFloat (stripCommas (orZero (cell row 2))) = none ∨
        parseFloat (stripCommas (orZero (cell row 3))) = none) →
      processTpexRow row = .ok none) ∧
    (∀ row : Row, cell row 3 = none → processTwseRow row = Except.error ()) ∧
    (∀ row : Row, cell row 0 = none → processTpexRow row = Except.error ()) := by
  refine ⟨?_, ?_, ?_, ?_, ?_, ?_, ?_, ?_⟩
  · intro j h
    simp [processTwseData, h]
  · intro j h1 h2 h3
    simp [processTpexData, tpexSelect, h1, h2, h3]
  · intro row h3 h7 h8
    rcases Option.isSome_iff_exists.mp h3 with ⟨a3, h3e⟩
    rcases Option.isSome_iff_exists.mp h7 with ⟨r7, h7e⟩
    rcases Option.isSome_iff_exists.mp h8 with ⟨r8, h8e⟩
    cases hc : parseFloat (stripCommas r7) with
    | none => exact ⟨none, by simp [processTwseRow, h3e, h7e, h8e, hc]⟩
    | some close =>
      cases hch : twseChange r8 with
      | none => exact ⟨none, by simp [processTwseRow, h3e, h7e, h8e, hc, hch]⟩
      | some change =>
        by_cases hz : close = 0
        · exact ⟨none, by simp [processTwseRow, h3e, h7e, h8e, hc, hch, hz]⟩
        · exact ⟨some ⟨cell row 0, cell row 1, computePct close change, close, stripCommas a3⟩,
            by simp [processTwseRow, h3e, h7e, h8e, hc, hch, hz]⟩
  · intro row a3 r7 r8 h3 h7 h8 hor
    rcases hor with hc | hch
    · simp [processTwseRow, h3, h7, h8, hc]
    · cases hc : parseFloat (stripCommas r7) with
      | none => simp [processTwseRow, h3, h7, h8, hc]
      | some close => simp [processTwseRow, h3, h7, h8, hc, hch]
  · intro row h0
    rcases Option.isSome_iff_exists.mp h0 with ⟨code, h0e⟩
    by_cases hlen : code.length ≥ 6
    · exact ⟨none, by simp [processTpexRow, h0e, hlen]⟩
    · cases hc : parseFloat (stripCommas (orZero (cell row 2))) with
      | none => exact ⟨none, by simp [processTpexRow, h0e, hlen, hc]⟩
      | some close =>
        cases hch : parseFloat (stripCommas (orZero (cell row 3))) with
        | none => exact ⟨none, by simp [processTpexRow, h0e, hlen, hc, hch]⟩
        | some change =>
          by_cases hz : close = 0
          · exact ⟨none, by simp [processTpexRow, h0e, hlen, hc, hch, hz]⟩
          · exact ⟨some ⟨some code, cell row 1, computePct close change, close,
              stripCommas (orZero (cell row 8))⟩,
              by simp [processTpexRow, h0e, hlen, hc, hch, hz]⟩
  · intro row code h0 hlen hor
    have hlen2 : ¬ code.length ≥ 6 := Nat.not_le_of_lt hlen
    rcases hor with hc | hch
    · simp [processTpexRow, h0, hlen2, hc]
    · cases hc : parseFloat (stripCommas (orZero (cell row 2))) with
      | none => simp [processTpexRow, h0, hlen2, hc]
      | some close => simp [processTpexRow, h0, hlen2, hc, hch]
  · intro row h3
    simp [processTwseRow, h3]
  · intro row h0
    simp [processTpexRow, h0]

/-- The descending comparator is transitive. -/
theorem descLE_trans (a b c : Stock) (hab : descLE a b) (hbc : descLE b c) : descLE a c := by
  simp only [descLE, decide_eq_true_eq] at *
  exact le_trans hbc hab

/-- The descending comparator is total. -/
theorem descLE_total (a b : Stock) : descLE a b || descLE b a := by
  simp only [descLE, Bool.or_eq_true, decide_eq_true_eq]
  exact le_total b.pct a.pct

/-- The ascending comparator is transitive. -/
theorem ascLE_trans (a b c : Stock) (hab : ascLE a b) (hbc : ascLE b c) : ascLE a c := by
  simp only [ascLE, decide_eq_true_eq] at *
  exact le_trans hab hbc

/-- The ascending comparator is total. -/
theorem ascLE_total (a b : Stock) : ascLE a b || ascLE b a := by
  simp only [ascLE, Bool.or_eq_true, decide_eq_true_eq]
  exact le_total a.pct b.pct

/-- Claim C4: for every non-empty combined stock list, the gainers list is
the combined list stably sorted descending by `pct` and truncated to at most
100 entries, and the losers list the same ascending; with fewer than 100
qualifying rows the length is the qualifying count, and ties keep input
order (any two entries of the input with equal `pct` stay adjacent-ordered
as in the input inside the full sorted list the output is a prefix of). -/
theorem claim_C4_rank_truncate (allStocks : List Stock) (hne : allStocks ≠ []) :
    ((gainers allStocks).length = min 100 allStocks.length ∧
      (gainers allStocks).Pairwise (fun a b => b.pct ≤ a.pct) ∧
      ∃ sorted, sorted.Perm allStocks ∧ sorted.Pairwise (fun a b => b.pct ≤ a.pct) ∧
        gainers allStocks = sorted.take 100 ∧
        ∀ a b, [a, b].Sublist allStocks → a.pct = b.pct → [a, b].Sublist sorted) ∧
    ((losers allStocks).length = min 100 allStocks.length ∧
      (losers allStocks).Pairwise (fun a b => a.pct ≤ b.pct) ∧
      ∃ sorted, sorted.Perm allStocks ∧ sorted.Pairwise (fun a b => a.pct ≤ b.pct) ∧
        losers allStocks = sorted.take 100 ∧
        ∀ a b, [a, b].Sublist allStocks → a.pct = b.pct → [a, b].Sublist sorted) := by
  constructor
  · have hpw : (allStocks.mergeSort descLE).Pairwise (fun a b => b.pct ≤ a.pct) :=
      (List.sorted_mergeSort descLE_trans descLE_total allStocks).imp
        (fun h => by simpa [descLE] using h)
    refine ⟨?_, ?_, allStocks.mergeSort descLE, List.mergeSort_perm allStocks descLE, hpw,
      rfl, ?_⟩
    · simp [gainers]
    · exact List.Pairwise.sublist (List.take_sublist 100 _) hpw
    · intro a b hsub heq
      exact List.pair_sublist_mergeSort descLE_trans descLE_total
        (by simp [descLE, heq.ge]) hsub
  · have hpw : (allStocks.mergeSort ascLE).Pairwise (fun a b => a.pct ≤ b.pct) :=
      (List.sorted_mergeSort ascLE_trans ascLE_total allStocks).imp
        (fun h => by simpa [ascLE] using h)
    refine ⟨?_, ?_, allStocks.mergeSort ascLE, List.mergeSort_perm allStocks ascLE, hpw,
      rfl, ?_⟩
    · simp [losers]
    · exact List.Pairwise.sublist (List.take_sublist 100 _) hpw
    · intro a b hsub heq
      exact List.pair_sublist_mergeSort ascLE_trans ascLE_total
        (by simp [ascLE, heq.le]) hsub

/-- Witness for C4 at a concrete two-stock list. -/
theorem claim_C4_witness :
    ([⟨some "2330", none, 2, 10, ""⟩, ⟨some "5678", none, 1, 20, ""⟩] : List Stock) ≠ [] ∧
    (gainers [⟨some "2330", none, 2, 10, ""⟩, ⟨some "5678", none, 1, 20, ""⟩]).length =
      min 100 2 :=
  ⟨by decide,
    ((claim_C4_rank_truncate
      [⟨some "2330", none, 2, 10, ""⟩, ⟨some "5678", none, 1, 20, ""⟩] (by decide)).1.1)⟩

/-- Claim C5: when both normalizers produce zero records the endpoint
responds 404 with the "no data" error, and a 200 response never carries an
empty gainers or losers list. -/
theorem claim_C5_empty_is_404 (tw : TwsePayload) (tp : TpexPayload) (ts : String)
    (hT : processTwseData tw = .ok []) (hP : processTpexData tp = .ok []) :
    marketDataHandler (.ok tw) (.ok tp) ts = .notFound "No market data available today." ∧
    (∀ (twF : Except Unit TwsePayload) (tpF : Except Unit TpexPayload) (ts2 : String)
      (g l : List Stock) (m : List (Option String × String)) (t2 : String),
      marketDataHandler twF tpF ts2 = Response.ok g l m t2 → g ≠ [] ∧ l ≠ []) := by
  constructor
  · simp [marketDataHandler, hT, hP]
  · intro twF tpF ts2 g l m t2 h
    cases twF with
    | error e => simp [marketDataHandler] at h
    | ok tw2 =>
    cases tpF with
    | error e => simp [marketDataHandler] at h
    | ok tp2 =>
    cases hTD : processTwseData tw2 with
    | error e => simp [marketDataHandler, hTD] at h
    | ok sT =>
    cases hPD : processTpexData tp2 with
    | error e => simp [marketDataHandler, hTD, hPD] at h
    | ok sP =>
    simp only [marketDataHandler, hTD, hPD] at h
    by_cases hlen : (sT ++ sP).length = 0
    · rw [if_pos hlen] at h
      exact absurd h (by simp)
    · rw [if_neg hlen] at h
      simp only [Response.ok.injEq] at h
      obtain ⟨hg, hl, -, -⟩ := h
      constructor
      · subst hg
        intro hnil
        have := congrArg List.length hnil
        simp only [gainers, List.length_take, List.length_mergeSort,
          List.length_nil] at this
        omega
      · subst hl
        intro hnil
        have := congrArg List.length hnil
        simp only [losers, List.length_take, List.length_mergeSort,
          List.length_nil] at this
        omega

/-- Witness for C5 at payloads with missing containers. -/
theorem claim_C5_witness :
    marketDataHandler (.ok ⟨none⟩) (.ok ⟨some [], none, none⟩) "t" =
      .notFound "No market data available today." :=
  (claim_C5_empty_is_404 ⟨none⟩ ⟨some [], none, none⟩ "t"
    (by with_unfolding_all decide) (by with_unfolding_all decide)).1

/-- Lookup on a cons cell of the association-list map. -/
theorem mapLookup_cons (p : Option String × String) (m : List (Option String × String))
    (k2 : Option String) :
    mapLookup (p :: m) k2 = if p.1 = k2 then some p.2 else mapLookup m k2 := by
  by_cases h : p.1 = k2
  · simp [mapLookup, List.find?, h]
  · simp [mapLookup, List.find?, h]

/-- Overwriting key `k` does not change lookups at other keys. -/
theorem mapLookup_map_ne (k : Option String) (v : String) (k2 : Option String) (hk : k2 ≠ k) :
    ∀ m : List (Option String × String),
      mapLookup (m.map (fun p => if p.1 = k then (k, v) else p)) k2 = mapLookup m k2
  | [] => rfl
  | p :: ps => by
    by_cases hp : p.1 = k
    · rw [List.map_cons, if_pos hp, mapLookup_cons, mapLookup_cons]
      rw [if_neg (fun h => hk (Eq.symm h))]
      rw [if_neg (fun h => hk (hp ▸ h).symm)]
      exact mapLookup_map_ne k v k2 hk ps
    · rw [List.map_cons, if_neg hp, mapLookup_cons, mapLookup_cons]
      by_cases hpk2 : p.1 = k2
      · rw [if_pos hpk2, if_pos hpk2]
      · rw [if_neg hpk2, if_neg hpk2]
        exact mapLookup_map_ne k v k2 hk ps

/-- Overwriting key `k` makes lookup at `k` return the new value, provided
the key occurs. -/
theorem mapLookup_map_eq (k : Option String) (v : String) :
    ∀ m : List (Option String × String), m.any (fun p => decide (p.1 = k)) →
      mapLookup (m.map (fun p => if p.1 = k then (k, v) else p)) k = some v
  | [], h => by simp at h
  | p :: ps, h => by
    by_cases hp : p.1 = k
    · rw [List.map_cons, if_pos hp, mapLookup_cons, if_pos rfl]
    · rw [List.map_cons, if_neg hp, mapLookup_cons, if_neg hp]
      refine mapLookup_map_eq k v ps ?_
      simp only [List.any_cons, Bool.or_eq_true, decide_eq_true_eq] at h
      rcases h with h | h
      · exact absurd h hp
      · exact h

/-- When no entry has key `k`, lookup at `k` misses. -/
theorem mapLookup_eq_none (k : Option String) :
    ∀ m : List (Option String × String), ¬ (m.any (fun p => decide (p.1 = k)) = true) →
      mapLookup m k = none
  | [], _ => rfl
  | p :: ps, h => by
    simp only [List.any_cons, Bool.or_eq_true, decide_eq_true_eq, not_or] at h
    rw [mapLookup_cons, if_neg h.1]
    exact mapLookup_eq_none k ps (by simpa using h.2)

/-- Lookup after appending a single new entry. -/
theorem mapLookup_append_single (m : List (Option String × String)) (k : Option String)
    (v : String) (k2 : Option String) :
    mapLookup (m ++ [(k, v)]) k2 =
      match mapLookup m k2 with
      | some r => some r
      | none => if k = k2 then some v else none := by
  induction m with
  | nil =>
    show mapLookup [(k, v)] k2 = _
    rw [mapLookup_cons]
    rfl
  | cons p ps ih =>
    rw [List.cons_append, mapLookup_cons, mapLookup_cons]
    by_cases hp : p.1 = k2
    · rw [if_pos hp, if_pos hp]
    · rw [if_neg hp, if_neg hp, ih]

/-- `stockMapUpsert` behaves as a map update: lookup at the written key sees
the new value, everything else is unchanged. -/
theorem mapLookup_upsert (m : List (Option String × String)) (k : Option String) (v : String)
    (k2 : Option String) :
    mapLookup (stockMapUpsert m k v) k2 = if k2 = k then some v else mapLookup m k2 := by
  unfold stockMapUpsert
  by_cases hany : m.any (fun p => decide (p.1 = k)) = true
  · rw [if_pos hany]
    by_cases hk : k2 = k
    · subst hk
      rw [if_pos rfl]
      exact mapLookup_map_eq k2 v m hany
    · rw [if_neg hk]
      exact mapLookup_map_ne k v k2 hk m
  · rw [if_neg hany, mapLookup_append_single]
    by_cases hk : k2 = k
    · subst hk
      rw [mapLookup_eq_none k2 m hany]
    · rw [if_neg hk]
      cases hm : mapLookup m k2 with
      | some r => rfl
      | none => rw [if_neg (fun h => hk h.symm)]

/-- Folding upserts over a stock list: the lookup at `c` is the formatted
`pct` of the last stock with code `c`, or the prior map's entry when none. -/
theorem lookup_foldl_upsert (c : Option String) :
    ∀ (stocks : List Stock) (m : List (Option String × String)),
      mapLookup (stocks.foldl (fun acc s => stockMapUpsert acc s.code (formatPct s.pct)) m) c =
        match (stocks.filter (fun t => decide (t.code = c))).getLast? with
        | some t => some (formatPct t.pct)
        | none => mapLookup m c
  | [], m => rfl
  | s :: rest, m => by
    rw [List.foldl_cons, lookup_foldl_upsert c rest (stockMapUpsert m s.code (formatPct s.pct))]
    by_cases hcode : s.code = c
    · rw [List.filter_cons_of_pos (by simpa using hcode)]
      cases hfr : (rest.filter (fun t => decide (t.code = c))).getLast? with
      | some t =>
        have hne : rest.filter (fun t => decide (t.code = c)) ≠ [] := by
          intro hnil
          rw [hnil] at hfr
          exact absurd hfr (by simp)
        obtain ⟨x, xs, hxe⟩ := List.exists_cons_of_ne_nil hne
        rw [hxe, List.getLast?_cons_cons, ← hxe, hfr]
      | none =>
        have hnil : rest.filter (fun t => decide (t.code = c)) = [] :=
          List.getLast?_eq_none_iff.mp hfr
        rw [hnil, mapLookup_upsert, if_pos hcode.symm, List.getLast?_singleton]
    · rw [List.filter_cons_of_neg (by simpa using hcode)]
      cases hfr : (rest.filter (fun t => decide (t.code = c))).getLast? with
      | some t => rfl
      | none => rw [mapLookup_upsert, if_neg (fun h => hcode h.symm)]

/-- The stock map built by the endpoint resolves each code to the formatted
`pct` of the last stock with that code in the combined list. -/
theorem lookup_buildStockMap (stocks : List Stock) (c : Option String) :
    mapLookup (buildStockMap stocks) c =
      ((stocks.filter (fun t => decide (t.code = c))).getLast?).map
        (fun t => formatPct t.pct) := by
  rw [buildStockMap, lookup_foldl_upsert]
  cases (stocks.filter (fun t => decide (t.code = c))).getLast? with
  | some t => rfl
  | none => rfl

/-- Every character `decDigit` produces is a decimal digit. -/
theorem decDigit_isDigit (d : Nat) : (decDigit d).isDigit := by
  have h : d % 10 < 10 := Nat.mod_lt _ (by norm_num)
  unfold decDigit
  set m := d % 10 with hm
  interval_cases m <;> decide

/-- Every character of `natToDecAux` is a decimal digit. -/
theorem natToDecAux_digits : ∀ fuel n : Nat, ∀ c ∈ natToDecAux fuel n, c.isDigit
  | 0, _ => by intro c hc; simp [natToDecAux] at hc
  | _ + 1, 0 => by intro c hc; simp [natToDecAux] at hc
  | fuel + 1, n + 1 => by
    intro c hc
    simp only [natToDecAux, List.mem_append, List.mem_singleton] at hc
    rcases hc with hc | hc
    · exact natToDecAux_digits fuel ((n + 1) / 10) c hc
    · subst hc
      exact decDigit_isDigit _

/-- Every character of `natToDec` is a decimal digit. -/
theorem natToDec_digits (n : Nat) : ∀ c ∈ (natToDec n).data, c.isDigit := by
  unfold natToDec
  by_cases h : n = 0
  · rw [if_pos h]
    intro c hc
    have : c = '0' := by simpa using hc
    subst this
    decide
  · rw [if_neg h]
    intro c hc
    exact natToDecAux_digits n n c hc

/-- `natToDecAux` with enough fuel renders a positive number non-empty. -/
theorem natToDecAux_ne_nil (fuel n : Nat) (hf : 1 ≤ fuel) (hn : n ≠ 0) :
    natToDecAux fuel n ≠ [] := by
  cases fuel with
  | zero => omega
  | succ f =>
    cases n with
    | zero => exact absurd rfl hn
    | succ m => simp [natToDecAux]

/-- `natToDec` is never the empty string. -/
theorem natToDec_ne_nil (n : Nat) : (natToDec n).data ≠ [] := by
  unfold natToDec
  by_cases h : n = 0
  · rw [if_pos h]
    decide
  · rw [if_neg h]
    exact natToDecAux_ne_nil n n (by omega) h

/-- A decimal digit is neither a dot nor a plus sign. -/
theorem isDigit_ne_dot_plus {c : Char} (h : c.isDigit) : c ≠ '.' ∧ c ≠ '+' := by
  constructor <;> intro he <;> subst he <;> exact absurd h (by decide)

/-- Shape of the formatted percentage: some prefix with no decimal point and
a `+` head exactly when the value is positive, then a decimal point, exactly
two digits, and a percent sign. -/
theorem formatPct_shape (q : ℚ) :
    ∃ A d1 d2, (formatPct q).data = A ++ '.' :: [d1, d2, '%'] ∧
      d1.isDigit ∧ d2.isDigit ∧ '.' ∉ A ∧ (A.head? = some '+' ↔ 0 < q) := by
  by_cases h1 : 0 < q
  · refine ⟨'+' :: (natToDec (ratFloorNat (|q| * 100 + 1 / 2) / 100)).data,
      decDigit (ratFloorNat (|q| * 100 + 1 / 2) % 100 / 10),
      decDigit (ratFloorNat (|q| * 100 + 1 / 2) % 100), ?_, decDigit_isDigit _,
      decDigit_isDigit _, ?_, ?_⟩
    · rw [formatPct, toFixed2]
      rw [if_pos h1, if_neg (not_lt_of_gt h1)]
      simp [String.data_append, pad2]
    · intro hmem
      rcases List.mem_cons.mp hmem with he | hmem2
      · exact absurd he (by decide)
      · exact absurd ((isDigit_ne_dot_plus (natToDec_digits _ _ hmem2)).1 rfl) id
    · simp [h1]
  · by_cases h2 : q < 0
    · refine ⟨'-' :: (natToDec (ratFloorNat (|q| * 100 + 1 / 2) / 100)).data,
        decDigit (ratFloorNat (|q| * 100 + 1 / 2) % 100 / 10),
        decDigit (ratFloorNat (|q| * 100 + 1 / 2) % 100), ?_, decDigit_isDigit _,
        decDigit_isDigit _, ?_, ?_⟩
      · rw [formatPct, toFixed2]
        rw [if_neg h1, if_pos h2]
        simp [String.data_append, pad2]
      · intro hmem
        rcases List.mem_cons.mp hmem with he | hmem2
        · exact absurd he (by decide)
        · exact absurd ((isDigit_ne_dot_plus (natToDec_digits _ _ hmem2)).1 rfl) id
      · simp [h1]
    · refine ⟨(natToDec (ratFloorNat (|q| * 100 + 1 / 2) / 100)).data,
        decDigit (ratFloorNat (|q| * 100 + 1 / 2) % 100 / 10),
        decDigit (ratFloorNat (|q| * 100 + 1 / 2) % 100), ?_, decDigit_isDigit _,
        decDigit_isDigit _, ?_, ?_⟩
      · rw [formatPct, toFixed2]
        rw [if_neg h1, if_neg h2]
        simp [String.data_append, pad2]
      · intro hmem
        exact absurd ((isDigit_ne_dot_plus (natToDec_digits _ _ hmem)).1 rfl) id
      · constructor
        · intro hhead
          cases hdata : (natToDec (ratFloorNat (|q| * 100 + 1 / 2) / 100)).data with
          | nil => exact absurd hdata (natToDec_ne_nil _)
          | cons c cs =>
            rw [hdata] at hhead
            have hc : c = '+' := by simpa using hhead
            have hd : c.isDigit := natToDec_digits _ c (by rw [hdata]; exact List.mem_cons_self _ _)
            exact absurd hc (isDigit_ne_dot_plus hd).2
        · intro hq
          exact absurd hq h1

/-- A TWSE row with code 2330 and change +1 over close 10. -/
def twseDupRowA : Row :=
  [some "2330", some "A", some "", some "100", some "", some "", some "",
   some "10", some "+1"]

/-- A TWSE row that repeats code 2330 with change +2 over close 10. -/
def twseDupRowB : Row :=
  [some "2330", some "B", some "", some "100", some "", some "", some "",
   some "10", some "+2"]

/-- Claim C6 fails on the code when two normalized stocks share a code: the
stockMap entry then holds the later stock's formatted percentage, not that
of every stock with that code. Here both rows normalize (pcts 100/9 and 25),
but the entry for code 2330 is "+25.00%", not the first stock's "+11.11%". -/
theorem claim_C6_counterexample :
    processTwseData { data := some [twseDupRowA, twseDupRowB] } =
      .ok [⟨some "2330", some "A", 100 / 9, 10, "100"⟩,
        ⟨some "2330", some "B", 25, 10, "100"⟩] ∧
    formatPct (100 / 9 : ℚ) = "+11.11%" ∧
    mapLookup (buildStockMap [⟨some "2330", some "A", 100 / 9, 10, "100"⟩,
        ⟨some "2330", some "B", 25, 10, "100"⟩]) (some "2330") = some "+25.00%" ∧
    mapLookup (buildStockMap [⟨some "2330", some "A", 100 / 9, 10, "100"⟩,
        ⟨some "2330", some "B", 25, 10, "100"⟩]) (some "2330") ≠
      some (formatPct (100 / 9 : ℚ)) := by
  refine ⟨?_, ?_, ?_, ?_⟩ <;> with_unfolding_all decide

/-- Claim C6 amended: for every normalized stock that is the last occurrence
of its code in the combined list (in particular whenever codes are unique),
the stockMap entry for its code is its `pct` formatted with exactly two
decimal places followed by `%`, with a leading `+` exactly when `pct > 0`;
`pct = 3.456` gives "+3.46%" and `pct = -1.2` gives "-1.20%". -/
theorem claim_C6_amended (stocks : List Stock) (c : Option String) (s : Stock)
    (hlast : (stocks.filter (fun t => decide (t.code = c))).getLast? = some s) :
    mapLookup (buildStockMap stocks) c = some (formatPct s.pct) ∧
    (∃ A d1 d2, (formatPct s.pct).data = A ++ '.' :: [d1, d2, '%'] ∧
      d1.isDigit ∧ d2.isDigit ∧ '.' ∉ A ∧ (A.head? = some '+' ↔ 0 < s.pct)) ∧
    formatPct (3456 / 1000 : ℚ) = "+3.46%" ∧ formatPct (-12 / 10 : ℚ) = "-1.20%" := by
  refine ⟨?_, formatPct_shape s.pct, by with_unfolding_all decide,
    by with_unfolding_all decide⟩
  rw [lookup_buildStockMap, hlast]
  rfl

/-- Witness for C6 (amended) at a one-stock list. -/
theorem claim_C6_witness :
    ([(⟨some "9999", none, 3456 / 1000, 1, ""⟩ : Stock)].filter
        (fun t => decide (t.code = some "9999"))).getLast? =
      some (⟨some "9999", none, 3456 / 1000, 1, ""⟩ : Stock) ∧
    mapLookup (buildStockMap [⟨some "9999", none, 3456 / 1000, 1, ""⟩]) (some "9999") =
      some (formatPct ((⟨some "9999", none, 3456 / 1000, 1, ""⟩ : Stock).pct)) :=
  ⟨by with_unfolding_all decide,
    (claim_C6_amended [⟨some "9999", none, 3456 / 1000, 1, ""⟩] (some "9999")
      ⟨some "9999", none, 3456 / 1000, 1, ""⟩ (by with_unfolding_all decide)).1⟩

/-- Claim C7: if either upstream fetch fails, or a normalizer throws, the
endpoint responds with the generic fixed 500 message (which carries no
exception detail; the underlying cause is only logged server-side, outside
this model). -/
theorem claim_C7_failures_are_500 (twF : Except Unit TwsePayload)
    (tpF : Except Unit TpexPayload) (ts : String)
    (h : twF = .error () ∨ tpF = .error () ∨
      (∃ tw, twF = .ok tw ∧ processTwseData tw = .error ()) ∨
      (∃ tp, tpF = .ok tp ∧ processTpexData tp = .error ())) :
    marketDataHandler twF tpF ts = .serverError "Failed to fetch market data" := by
  rcases h with h | h | ⟨tw, htw, hp⟩ | ⟨tp, htp, hp⟩
  · subst h
    rfl
  · subst h
    cases twF with
    | error e => rfl
    | ok tw => rfl
  · subst htw
    cases tpF with
    | error e => rfl
    | ok tp =>
      cases hq : processTpexData tp <;> simp [marketDataHandler, hp, hq]
  · subst htp
    cases twF with
    | error e => rfl
    | ok tw =>
      cases hq : processTwseData tw <;> simp [marketDataHandler, hp, hq]

/-- Witness for C7 at a failed first fetch. -/
theorem claim_C7_witness :
    marketDataHandler (.error ()) (.ok ⟨none, none, none⟩) "t" =
      .serverError "Failed to fetch market data" :=
  claim_C7_failures_are_500 (.error ()) (.ok ⟨none, none, none⟩) "t" (Or.inl rfl)

/-- Claim C8 fails on the code: when `tables` is missing (or empty) the TPEX
normalizer does not yield no rows for every such payload — it falls back to
the `data` (then `aaData`) container, which can supply rows. -/
theorem claim_C8_counterexample :
    (⟨none, some [tpexExampleRow], none⟩ : TpexPayload).tables = none ∧
    processTpexData ⟨none, some [tpexExampleRow], none⟩ =
      .ok [⟨some "5678", some "SmallCo", -50 / 13, 50, "1000"⟩] ∧
    ([(⟨some "5678", some "SmallCo", -50 / 13, 50, "1000"⟩ : Stock)] : List Stock) ≠ [] :=
  ⟨rfl, by with_unfolding_all decide, by decide⟩

/-- Claim C8 amended: whenever `tables` is empty or missing AND the `data`
and `aaData` fallback containers are each missing or empty, the TPEX
normalizer yields no rows. -/
theorem claim_C8_amended (j : TpexPayload)
    (htab : j.tables = none ∨ j.tables = some [])
    (hdat : j.data = none ∨ j.data = some [])
    (haa : j.aaData = none ∨ j.aaData = some []) :
    processTpexData j = .ok [] := by
  have hsel : tpexSelect j = some [] := by
    rcases htab with h | h <;> rcases hdat with h2 | h2 <;> rcases haa with h3 | h3 <;>
      simp [tpexSelect, h, h2, h3]
  simp [processTpexData, hsel]

/-- Witness for C8 (amended) at a payload with empty containers. -/
theorem claim_C8_witness :
    processTpexData ⟨some [], none, some []⟩ = .ok [] :=
  claim_C8_amended ⟨some [], none, some []⟩ (Or.inr rfl) (Or.inl rfl) (Or.inr rfl)

/-- Claim C9: the classification call returns an empty sequence of category
groups when the model's output text is absent or fails structured parsing;
the embedding is a total function, so no exception reaches the caller. -/
theorem claim_C9_degrade_to_empty (parseJSON : String → Except Unit (List CategoryGroup))
    (text : Option String)
    (h : text = none ∨ ∃ t, text = some t ∧ parseJSON t = .error ()) :
    classifyResult parseJSON text = [] := by
  rcases h with h | ⟨t, ht, hp⟩
  · subst h
    rfl
  · subst ht
    simp [classifyResult, hp]

/-- Witness for C9 at a parser that always fails. -/
theorem claim_C9_witness :
    classifyResult (fun _ => .error ()) (some "not json") = [] :=
  claim_C9_degrade_to_empty (fun _ => .error ()) (some "not json")
    (Or.inr ⟨"not json", rfl, rfl⟩)

/-- Claim C10: the stockMap entry for a code is the formatted percentage of
the last stock with that code in the concatenated list (exchange 1 then
exchange 2); in particular, when both segments contain the code, an
exchange-2 record wins, and non-colliding codes are unaffected (their entry
is their unique occurrence's percentage). -/
theorem claim_C10_last_write_wins (twse tpex : List Stock) (c : Option String) :
    mapLookup (buildStockMap (twse ++ tpex)) c =
      ((twse ++ tpex).filter (fun t => decide (t.code = c))).getLast?.map
        (fun t => formatPct t.pct) ∧
    (∀ b0 ∈ tpex, b0.code = c →
      ∃ b, b ∈ tpex ∧ b.code = c ∧
        (tpex.filter (fun t => decide (t.code = c))).getLast? = some b ∧
        mapLookup (buildStockMap (twse ++ tpex)) c = some (formatPct b.pct)) := by
  constructor
  · exact lookup_buildStockMap (twse ++ tpex) c
  · intro b0 hb0 hc0
    have hmemf : b0 ∈ tpex.filter (fun t => decide (t.code = c)) :=
      List.mem_filter.mpr ⟨hb0, by simp [hc0]⟩
    have hne : tpex.filter (fun t => decide (t.code = c)) ≠ [] :=
      List.ne_nil_of_mem hmemf
    cases hl : (tpex.filter (fun t => decide (t.code = c))).getLast? with
    | none => exact absurd (List.getLast?_eq_none_iff.mp hl) hne
    | some b =>
      have hbf : b ∈ tpex.filter (fun t => decide (t.code = c)) :=
        List.mem_of_getLast?_eq_some hl
      refine ⟨b, (List.mem_filter.mp hbf).1, by simpa using (List.mem_filter.mp hbf).2,
        rfl, ?_⟩
      rw [lookup_buildStockMap, List.filter_append,
        List.getLast?_append_of_ne_nil _ hne, hl]
      rfl

end StockServer
